import Mathlib

/-!
Verification of the emcc-sandboxd compilation service (Go sources under
`src/`).  The Go functions relevant to the frozen claims are embedded
shallowly as executable Lean definitions: strings are Lean `String`s
(character lists), machine `int64` values are `Int`, fallible I/O is made
explicit by passing file contents as `Option String`, and the stateful
memory-admission controller is modelled by explicit state passing over a
`GateState` record.
-/

/-! ## String helpers

The Go standard-library string operations used by the service
(`strings.HasPrefix`, `strings.Contains`, `strings.TrimSpace`,
`strings.ToLower`) are embedded as functions on the character list
underlying a `String`, restricted to ASCII, which is the alphabet of every
flag and language tag the service compares against. -/

/-- `strings.HasPrefix` on character lists. -/
def hasPre : List Char → List Char → Bool
  | _, [] => true
  | [], _ :: _ => false
  | c :: cs, d :: ds => c == d && hasPre cs ds

/-- Substring occurrence on character lists (`strings.Contains`). -/
def containsSub : List Char → List Char → Bool
  | [], pat => hasPre [] pat
  | c :: cs, pat => hasPre (c :: cs) pat || containsSub cs pat

/-- `strings.HasPrefix s pre`. -/
def strStartsWith (s pre : String) : Bool :=
  hasPre s.data pre.data

/-- `strings.Contains s pat`. -/
def strContains (s pat : String) : Bool :=
  containsSub s.data pat.data

/-- ASCII whitespace recognized by `strings.TrimSpace` (the Unicode cases
never arise for the flag vocabulary of the service). -/
def isSpaceChar (c : Char) : Bool :=
  c == ' ' || c == '\t' || c == '\n' || c == '\x0b' || c == '\x0c' || c == '\r'

/-- Trim leading and trailing whitespace from a character list. -/
def trimChars (l : List Char) : List Char :=
  ((l.dropWhile isSpaceChar).reverse.dropWhile isSpaceChar).reverse

/-- `strings.TrimSpace`. -/
def strTrim (s : String) : String :=
  ⟨trimChars s.data⟩

/-- ASCII lowering of one character (`strings.ToLower`, ASCII range). -/
def lowerChar (c : Char) : Char :=
  if 'A' ≤ c ∧ c ≤ 'Z' then Char.ofNat (c.toNat + 32) else c

/-- `strings.ToLower`, ASCII range. -/
def strToLower (s : String) : String :=
  ⟨s.data.map lowerChar⟩

/-! ## Argument filter (`src/args.go`) -/

/-- The allowlist `allowedPrefix` of `MergeAndFilterArgs`. -/
def allowedPrefixes : List String :=
  ["-O0", "-O1", "-O2", "-O3", "-Os", "-Oz",
   "-g", "-g4",
   "-sMODULARIZE=",
   "-sENVIRONMENT=",
   "-sINVOKE_RUN=",
   "-sEXPORTED_FUNCTIONS=",
   "-sEXPORTED_RUNTIME_METHODS=",
   "-sALLOW_MEMORY_GROWTH=",
   "--preload-file",
   "--embed-file",
   "--source-map-base"]

/-- The blocklist `blocked` of `MergeAndFilterArgs`. -/
def blockedList : List String :=
  ["-o", "--shell-file", "-sFORCE_FILESYSTEM", "-sENVIRONMENT=node"]

/-- `cfg.DefaultArgs` from `DefaultConfig` (`src/config.go`). -/
def defaultArgs : List String :=
  ["-sINVOKE_RUN=0", "-sENVIRONMENT=web", "-sALLOW_MEMORY_GROWTH=1", "-sMODULARIZE=1"]

/-- `isBlockedArg` (`src/args.go`): exact match against a blocked flag, or
prefix match against the blocked flag followed by `=`. -/
def isBlockedArg (a : String) (blocked : List String) : Bool :=
  blocked.any (fun b => a == b || strStartsWith a (b ++ "="))

/-- `isAllowedArg` (`src/args.go`): prefix match or exact match against the
allowlist. -/
def isAllowedArg (a : String) (allowed : List String) : Bool :=
  allowed.any (fun p => strStartsWith a p || a == p)

/-- `safeArgPath` (`src/args.go`): deny absolute paths and parent escapes. -/
def safeArgPath (p : String) : Bool :=
  if strStartsWith p "/" then false
  else if strContains p ".." then false
  else true

/-- The three flags treated as path pairs by `MergeAndFilterArgs`. -/
def isPairFlag (t : String) : Bool :=
  t == "--preload-file" || t == "--embed-file" || t == "--source-map-base"

/-- The fall-through of the `MergeAndFilterArgs` loop body on a trimmed,
non-empty token that is not consumed by the pair branch: drop if blocked,
append if allowed, silently drop otherwise. -/
def filterSingle (t : String) : List String :=
  if isBlockedArg t blockedList then []
  else if isAllowedArg t allowedPrefixes then [t]
  else []

/-- The user-token loop of `MergeAndFilterArgs` (`src/args.go`), as a
recursion over the user argument vector.  A pair flag consumes the next
token only when one exists (`i+1 < len(user)` in the Go loop), matching the
two-element pattern; a trailing pair flag falls through to the
blocklist/allowlist checks. -/
def filterUserArgs : List String → List String
  | [] => []
  | [a] =>
    if strTrim a = "" then [] else filterSingle (strTrim a)
  | a :: b :: rest =>
    if strTrim a = "" then filterUserArgs (b :: rest)
    else if isPairFlag (strTrim a) then
      (if safeArgPath (strTrim b) then
        strTrim a :: strTrim b :: filterUserArgs rest
      else filterUserArgs rest)
    else filterSingle (strTrim a) ++ filterUserArgs (b :: rest)

/-- `MergeAndFilterArgs` (`src/args.go`): start from the operator defaults
and append the filtered user tokens. -/
def mergeAndFilterArgs (defaults user : List String) : List String :=
  defaults ++ filterUserArgs user

/-- Instrumentation of the pair branch of `MergeAndFilterArgs`: the tokens
accepted as the paired value immediately following `--preload-file`,
`--embed-file` or `--source-map-base`.  Mirrors the recursion of
`filterUserArgs`, collecting exactly the `next` tokens that the pair branch
appends. -/
def acceptedPairValues : List String → List String
  | [] => []
  | [_] => []
  | a :: b :: rest =>
    if strTrim a = "" then acceptedPairValues (b :: rest)
    else if isPairFlag (strTrim a) then
      (if safeArgPath (strTrim b) then
        strTrim b :: acceptedPairValues rest
      else acceptedPairValues rest)
    else acceptedPairValues (b :: rest)

example : filterUserArgs ["-O2", "-o", "evil", "-sFORCE_FILESYSTEM=1",
    "-sEXPORTED_FUNCTIONS=[_main]", "--preload-file", "../etc/passwd"]
    = ["-O2", "-sEXPORTED_FUNCTIONS=[_main]"] := by decide

example : filterUserArgs ["--preload-file", "-o"] = ["--preload-file", "-o"] := by decide

/-! ## Memory admission controller (`resource.go`)

The controller's shared state `(memBudgetBytes, memReservedBytes)` is a
record; the mutations that the Go code performs under `s.mu` become pure
state transformations.  One iteration of the `acquireMemory` polling loop
reads `memory.current` from the cgroup probe and then either grants the
reservation, observes cancellation during the 200 ms ticker wait, or
retries; a run of the loop is driven by the finite trace of per-iteration
events (the probe reading, which may fail, and whether the `select`
observes `ctx.Done()` during that iteration's wait). -/

/-- The in-memory admission state of `Server` (`server.go`):
`memBudgetBytes` is 0 when gating is unlimited/not configured. -/
structure GateState where
  memBudgetBytes : Int
  memReservedBytes : Int
deriving DecidableEq

/-- One polling iteration's environment: the result of reading
`memory.current` (`none` models a read error), and whether the `select`
takes the `ctx.Done()` branch during this iteration's ticker wait. -/
structure AcquireEvent where
  probe : Option Int
  cancels : Bool
deriving DecidableEq

/-- Result of a run of the `acquireMemory` loop: granted (with the updated
state), aborted by context cancellation (state untouched), or still
polling when the event trace ran out. -/
inductive AcquireOutcome
  | ok (s : GateState)
  | cancelled (s : GateState)
  | pending (s : GateState)
deriving DecidableEq

/-- `s.memReservedBytes += estimateBytes` performed under the lock. -/
def reserveAdd (s : GateState) (estimateBytes : Int) : GateState :=
  ⟨s.memBudgetBytes, s.memReservedBytes + estimateBytes⟩

/-- The ticker quantum of `acquireMemory`, in milliseconds. -/
def acquireTickMillis : Int := 200

/-- `acquireMemory` (`resource.go`): each iteration first checks the budget
(0 means unlimited: reserve and return immediately); otherwise it reads
`memory.current`, on a read error waits and retries (yielding to
cancellation), and otherwise grants iff
`cur + memReservedBytes + estimateBytes ≤ memBudgetBytes`, else waits one
tick and retries (again yielding to cancellation).  Cancellation returns
`ctx.Err()` with the state untouched. -/
def acquireMemory (s : GateState) (estimateBytes : Int) : List AcquireEvent → AcquireOutcome
  | [] =>
    if s.memBudgetBytes = 0 then .ok (reserveAdd s estimateBytes) else .pending s
  | ev :: rest =>
    if s.memBudgetBytes = 0 then .ok (reserveAdd s estimateBytes)
    else match ev.probe with
      | none =>
        if ev.cancels then .cancelled s else acquireMemory s estimateBytes rest
      | some cur =>
        if cur + s.memReservedBytes + estimateBytes ≤ s.memBudgetBytes then
          .ok (reserveAdd s estimateBytes)
        else if ev.cancels then .cancelled s
        else acquireMemory s estimateBytes rest

/-- `releaseMemory` (`resource.go`): decrement the reservation, clamping at
zero. -/
def releaseMemory (s : GateState) (estimateBytes : Int) : GateState :=
  if estimateBytes > s.memReservedBytes then ⟨s.memBudgetBytes, 0⟩
  else ⟨s.memBudgetBytes, s.memReservedBytes - estimateBytes⟩

/-- An operation on the shared admission state: a completed `acquireMemory`
call (with its event trace) or a `releaseMemory` call. -/
inductive GateOp
  | acq (n : Int) (evs : List AcquireEvent)
  | rel (n : Int)

/-- The estimate argument carried by a gate operation. -/
def gateOpEstimate : GateOp → Int
  | .acq n _ => n
  | .rel n => n

/-- Apply one gate operation to the state (the state reached after the call
returns, whatever its outcome). -/
def applyGateOp (s : GateState) : GateOp → GateState
  | .acq n evs =>
    match acquireMemory s n evs with
    | .ok s' => s'
    | .cancelled s' => s'
    | .pending s' => s'
  | .rel n => releaseMemory s n

/-- Run a sequence of gate operations (one interleaving of the calls,
serialized at the granularity of the lock-protected mutations). -/
def runGateOps (s : GateState) (ops : List GateOp) : GateState :=
  ops.foldl applyGateOp s

/-! ## `/compile` handler (`handler.go`) -/

/-- Exits of `HandleCompile` reachable after a successful `acquireMemory`:
workspace setup failures (job dir, artifact dir, source write), a compiler
failure, and the success response. -/
inductive CompileOutcome
  | mkdirJobFailed
  | mkdirArtFailed
  | writeSourceFailed
  | compileFailed
  | promoted
deriving DecidableEq

/-- The post-admission part of `HandleCompile` (`handler.go`) as it acts on
the admission state: after `acquireMemory` succeeds the handler installs
`defer s.releaseMemory(est)`, so the release runs on every return path;
the first component is the HTTP status written on that path. -/
def handleCompileGated (s1 : GateState) (est : Int) : CompileOutcome → Nat × GateState
  | .mkdirJobFailed => (500, releaseMemory s1 est)
  | .mkdirArtFailed => (500, releaseMemory s1 est)
  | .writeSourceFailed => (500, releaseMemory s1 est)
  | .compileFailed => (400, releaseMemory s1 est)
  | .promoted => (200, releaseMemory s1 est)

/-- The job memory estimate in bytes (`handler.go`): `JobMemoryEstimateMB`
scaled to bytes, replaced by 256 MiB when non-positive. -/
def effectiveEstimateBytes (jobMemoryEstimateMB : Int) : Int :=
  if jobMemoryEstimateMB * 1024 * 1024 ≤ 0 then 256 * 1024 * 1024
  else jobMemoryEstimateMB * 1024 * 1024

/-- The language-tag check of `HandleCompile` (`handler.go`): reject or
accept (with the default applied). -/
inductive LangCheck
  | rejected (status : Nat) (body : String)
  | accepted (lang : String)
deriving DecidableEq

/-- The `req.Type` validation of `HandleCompile` (`handler.go`):
`lang := strings.ToLower(strings.TrimSpace(req.Type))`; reject with
HTTP 400 unless `lang` is `c`, `cpp`, `cc`, `c++` or empty; empty defaults
to `c`. -/
def validateLang (typeField : String) : LangCheck :=
  if strToLower (strTrim typeField) ≠ "c" ∧ strToLower (strTrim typeField) ≠ "cpp" ∧
      strToLower (strTrim typeField) ≠ "cc" ∧ strToLower (strTrim typeField) ≠ "c++" ∧
      strToLower (strTrim typeField) ≠ "" then
    .rejected 400 "type must be 'c' or 'cpp'"
  else if strToLower (strTrim typeField) = "" then .accepted "c"
  else .accepted (strToLower (strTrim typeField))

/-! ## Cgroup probe (`resource.go`) -/

/-- Result of `readCgroupMemoryMax`: a parsed byte count or an error (the
Go function returns `(int64, error)`; which error is immaterial here). -/
inductive ReadMaxResult
  | ok (v : Int)
  | err
deriving DecidableEq

/-- `c` is an ASCII decimal digit. -/
def isDigitChar (c : Char) : Bool :=
  '0' ≤ c && c ≤ '9'

/-- Accumulate the value of the leading run of decimal digits, stopping at
the first non-digit (`fmt.Sscanf` with `%d` ignores trailing input). -/
def takeDigitsVal : List Char → Int → Int
  | [], acc => acc
  | c :: cs, acc =>
    if isDigitChar c then takeDigitsVal cs (acc * 10 + ((c.toNat : Int) - (('0').toNat : Int)))
    else acc

/-- Whether the list begins with a decimal digit. -/
def firstIsDigit : List Char → Bool
  | [] => false
  | c :: _ => isDigitChar c

/-- `fmt.Sscanf(s, "%d", &v)` on a trimmed string: an optional sign
followed by at least one digit parses (trailing non-digits are ignored);
anything else is a scan error. -/
def scanIntChars : List Char → Option Int
  | [] => none
  | c :: rest =>
    if c = '-' then (if firstIsDigit rest then some (0 - takeDigitsVal rest 0) else none)
    else if c = '+' then (if firstIsDigit rest then some (takeDigitsVal rest 0) else none)
    else (if firstIsDigit (c :: rest) then some (takeDigitsVal (c :: rest) 0) else none)

/-- `fmt.Sscanf(s, "%d", &v)` on a `String`. -/
def scanInt (s : String) : Option Int :=
  scanIntChars s.data

/-- `readCgroupMemoryMax` (`resource.go`).  The contents of
`<root>/memory.max` are passed in as `fileContent` (`none` models a read
error).  An empty root is rejected with an error (`"cgroup root not
set"`); a trimmed content of `max` yields 0; otherwise the content is
scanned as a decimal, propagating scan failure. -/
def readCgroupMemoryMax (root : String) (fileContent : Option String) : ReadMaxResult :=
  if root = "" then .err
  else
    match fileContent with
    | none => .err
    | some b =>
      if strTrim b = "max" then .ok 0
      else
        match scanInt (strTrim b) with
        | some v => .ok v
        | none => .err

/-! ## Artifact reclaimer (`src/cleanup.go`) -/

/-- Nanoseconds per hour (`time.Duration` is an `int64` nanosecond count,
and `time.Hour = 3600 * 10^9`). -/
def nsPerHour : Int := 3600 * 1000000000

/-- `NewServer` (`server.go`): when the configured `ArtifactTTL` is zero it
is derived as `ArtifactTTLDays * 24 * time.Hour`. -/
def newServerArtifactTTL (cfgArtifactTTL artifactTTLDays : Int) : Int :=
  if cfgArtifactTTL = 0 then artifactTTLDays * 24 * nsPerHour else cfgArtifactTTL

/-- `StartCleanupLoop` (`src/cleanup.go`): when the configured
`ArtifactTTL` is non-positive it is re-derived as
`ArtifactTTLDays * 24 * time.Hour`; the result is the `ttl` used by the
cleanup goroutine. -/
def startCleanupTTL (cfgArtifactTTL artifactTTLDays : Int) : Int :=
  if cfgArtifactTTL ≤ 0 then artifactTTLDays * 24 * nsPerHour else cfgArtifactTTL

/-- The per-entry deletion decision of the cleanup goroutine
(`src/cleanup.go`): an entry is removed when its `Stat` succeeded, it is a
directory, and `time.Since(fi.ModTime()) > ttl` (`ageNs` is that elapsed
time in nanoseconds). -/
def cleanupDeletes (statOk isDir : Bool) (ageNs ttl : Int) : Bool :=
  statOk && isDir && decide (ttl < ageNs)

/-! ## Helper lemmas -/

/-- A token produced by the fall-through branch is the token itself, and it
passed the blocklist. -/
theorem mem_filterSingle (t tok : String) (h : tok ∈ filterSingle t) :
    tok = t ∧ isBlockedArg t blockedList = false := by
  unfold filterSingle at h
  by_cases hb : isBlockedArg t blockedList
  · simp [hb] at h
  · rw [if_neg hb] at h
    refine ⟨?_, by simpa using hb⟩
    by_cases ha : isAllowedArg t allowedPrefixes
    · simpa using (by rw [if_pos ha] at h; simpa using h)
    · simp [ha] at h

/-- Passing the blocklist rules out the blocked flag `-o`, both as an exact
token and as the `-o=` prefix form. -/
theorem not_blocked_dash_o (t : String) (h : isBlockedArg t blockedList = false) :
    t ≠ "-o" ∧ strStartsWith t "-o=" = false := by
  constructor
  · intro heq
    subst heq
    have : isBlockedArg "-o" blockedList = true := by decide
    rw [this] at h
    exact Bool.true_eq_false.mp h
  · simp only [isBlockedArg, blockedList, List.any_cons, List.any_nil,
      Bool.or_eq_false_iff] at h
    have happ : ("-o" ++ "=" : String) = "-o=" := by decide
    have := h.1.2
    rwa [happ] at this

/-- A path accepted by `safeArgPath` neither starts with `/` nor contains
`..`. -/
theorem safeArgPath_true (p : String) (h : safeArgPath p = true) :
    strStartsWith p "/" = false ∧ strContains p ".." = false := by
  unfold safeArgPath at h
  by_cases h1 : strStartsWith p "/"
  · simp [h1] at h
  · by_cases h2 : strContains p ".."
    · simp [h1, h2] at h
    · exact ⟨by simpa using h1, by simpa using h2⟩

/-- A run of the `acquireMemory` loop ends in exactly one of three shapes:
granted with the reservation added, cancelled with the state untouched, or
still polling with the state untouched. -/
theorem acquireMemory_cases :
    ∀ (evs : List AcquireEvent) (s : GateState) (n : Int),
      acquireMemory s n evs = AcquireOutcome.ok (reserveAdd s n)
      ∨ acquireMemory s n evs = AcquireOutcome.cancelled s
      ∨ acquireMemory s n evs = AcquireOutcome.pending s
  | [], s, n => by
    unfold acquireMemory
    by_cases h : s.memBudgetBytes = 0 <;> simp [h]
  | ev :: rest, s, n => by
    unfold acquireMemory
    by_cases h : s.memBudgetBytes = 0
    · simp [h]
    · rw [if_neg h]
      match hp : ev.probe with
      | none =>
        by_cases hc : ev.cancels
        · simp [hc]
        · simpa [hc] using acquireMemory_cases rest s n
      | some cur =>
        by_cases hle : cur + s.memReservedBytes + n ≤ s.memBudgetBytes
        · simp [hle]
        · by_cases hc : ev.cancels
          · simp [hle, hc]
          · simpa [hle, hc] using acquireMemory_cases rest s n

/-! ## Claim theorems -/

/-- Claim C1 (code bug): with `artifactTTLDays = 0` the derived TTL is 0,
and the cleanup loop then deletes any artifact directory whose age is
positive (here: one hour old), instead of disabling reclamation as the
configuration documentation states. -/
theorem cleanup_ttl_zero_still_deletes :
    startCleanupTTL (newServerArtifactTTL 0 0) 0 = 0
    ∧ cleanupDeletes true true nsPerHour (startCleanupTTL (newServerArtifactTTL 0 0) 0) = true := by
  constructor
  · decide
  · decide

/-- Claim C4: `acquireMemory` with budget 0 reserves `n` and returns
success immediately; with a positive budget, an attempt whose fresh probe
reading is `cur` grants (adding `n` to the reservation) exactly when
`cur + reserved + n ≤ budget`, and otherwise waits one ticker quantum
(`acquireTickMillis = 200` milliseconds) and retries on the remaining
attempts. -/
theorem acquire_grant_semantics (s : GateState) (n : Int) :
    (s.memBudgetBytes = 0 →
      ∀ evs, acquireMemory s n evs
        = AcquireOutcome.ok ⟨s.memBudgetBytes, s.memReservedBytes + n⟩)
    ∧ (0 < s.memBudgetBytes → ∀ cur rest,
        (cur + s.memReservedBytes + n ≤ s.memBudgetBytes →
          acquireMemory s n (⟨some cur, false⟩ :: rest)
            = AcquireOutcome.ok ⟨s.memBudgetBytes, s.memReservedBytes + n⟩)
        ∧ (s.memBudgetBytes < cur + s.memReservedBytes + n →
          acquireMemory s n (⟨some cur, false⟩ :: rest) = acquireMemory s n rest))
    ∧ acquireTickMillis = 200 := by
  refine ⟨?_, ?_, rfl⟩
  · intro h evs
    cases evs <;> simp [acquireMemory, h, reserveAdd]
  · intro h cur rest
    have hne : ¬s.memBudgetBytes = 0 := by omega
    constructor
    · intro hle
      simp [acquireMemory, hne, hle, reserveAdd]
    · intro hgt
      have hnle : ¬cur + s.memReservedBytes + n ≤ s.memBudgetBytes := by omega
      simp [acquireMemory, hne, hnle]

/-- Claim C4 witness: concrete grants and one deferred retry. -/
theorem acquire_grant_semantics_witness :
    acquireMemory ⟨0, 3⟩ 5 [] = AcquireOutcome.ok ⟨0, 8⟩
    ∧ acquireMemory ⟨100, 10⟩ 20 [⟨some 30, false⟩] = AcquireOutcome.ok ⟨100, 30⟩
    ∧ acquireMemory ⟨100, 10⟩ 80 [⟨some 30, false⟩, ⟨some 5, false⟩]
        = acquireMemory ⟨100, 10⟩ 80 [⟨some 5, false⟩] :=
  ⟨(acquire_grant_semantics ⟨0, 3⟩ 5).1 rfl [],
   ((acquire_grant_semantics ⟨100, 10⟩ 20).2.1 (by decide) 30 []).1 (by decide),
   ((acquire_grant_semantics ⟨100, 10⟩ 80).2.1 (by decide) 30 [⟨some 5, false⟩]).2 (by decide)⟩

/-- Claim C5: whenever `acquireMemory` succeeds for a `/compile` request,
the deferred `releaseMemory` with the same estimate runs on every
control-flow exit of the handler, so the reservation counter is back at
its pre-request value when the response is written. -/
theorem admission_symmetry (s s1 : GateState) (est : Int) (evs : List AcquireEvent)
    (hr : 0 ≤ s.memReservedBytes)
    (hacq : acquireMemory s est evs = AcquireOutcome.ok s1) :
    ∀ outcome, ((handleCompileGated s1 est outcome).2).memReservedBytes
      = s.memReservedBytes := by
  have hs1 : s1 = reserveAdd s est := by
    rcases acquireMemory_cases evs s est with hcase | hcase | hcase <;> rw [hacq] at hcase
    · exact (AcquireOutcome.ok.injEq _ _).mp hcase.symm |>.symm ▸ rfl
    · exact absurd hcase (by simp)
    · exact absurd hcase (by simp)
  subst hs1
  have hrel : (releaseMemory (reserveAdd s est) est).memReservedBytes
      = s.memReservedBytes := by
    simp only [releaseMemory, reserveAdd]
    split
    · simp
      omega
    · simp
  intro outcome
  cases outcome <;> simpa [handleCompileGated] using hrel

/-- Claim C5 witness: a concrete admitted request whose success exit
restores the reservation counter. -/
theorem admission_symmetry_witness :
    ((handleCompileGated ⟨100, 30⟩ 20 CompileOutcome.promoted).2).memReservedBytes = 10 :=
  admission_symmetry ⟨100, 10⟩ ⟨100, 30⟩ 20 [⟨some 30, false⟩] (by decide) (by decide)
    CompileOutcome.promoted

/-- Claim C6: when `acquireMemory` returns the cancellation error — the
context was cancelled while waiting, after a probe read failure or a
failed capacity test — the reservation counter is unchanged. -/
theorem acquire_cancel_untouched (evs : List AcquireEvent) (s : GateState) (n : Int)
    (s' : GateState) (h : acquireMemory s n evs = AcquireOutcome.cancelled s') :
    s'.memReservedBytes = s.memReservedBytes := by
  rcases acquireMemory_cases evs s n with hcase | hcase | hcase <;> rw [h] at hcase
  · exact absurd hcase (by simp)
  · rw [(AcquireOutcome.cancelled.injEq _ _).mp hcase]
  · exact absurd hcase (by simp)

/-- Claim C6 witness: cancellation after a probe read failure leaves the
reservation at its initial value. -/
theorem acquire_cancel_untouched_witness :
    acquireMemory ⟨100, 10⟩ 80 [⟨none, true⟩] = AcquireOutcome.cancelled ⟨100, 10⟩
    ∧ (⟨100, 10⟩ : GateState).memReservedBytes = (⟨100, 10⟩ : GateState).memReservedBytes :=
  ⟨by decide, acquire_cancel_untouched [⟨none, true⟩] ⟨100, 10⟩ 80 ⟨100, 10⟩ (by decide)⟩

/-- One gate operation with a non-negative estimate keeps the reservation
counter non-negative. -/
theorem applyGateOp_nonneg (s : GateState) (op : GateOp)
    (hs : 0 ≤ s.memReservedBytes) (hop : 0 ≤ gateOpEstimate op) :
    0 ≤ (applyGateOp s op).memReservedBytes := by
  cases op with
  | acq n evs =>
    simp only [gateOpEstimate] at hop
    rcases acquireMemory_cases evs s n with hcase | hcase | hcase <;>
      simp [applyGateOp, hcase, reserveAdd] <;> omega
  | rel n =>
    simp only [applyGateOp, releaseMemory]
    split
    · simp
    · simp
      omega

/-- Running gate operations with non-negative estimates preserves a
non-negative reservation counter. -/
theorem runGateOps_nonneg :
    ∀ (ops : List GateOp) (s : GateState),
      0 ≤ s.memReservedBytes → (∀ op ∈ ops, 0 ≤ gateOpEstimate op) →
      0 ≤ (runGateOps s ops).memReservedBytes
  | [], s, hs, _ => hs
  | op :: ops, s, hs, hops => by
    have hstep : 0 ≤ (applyGateOp s op).memReservedBytes :=
      applyGateOp_nonneg s op hs (hops op (List.mem_cons_self op ops))
    have htail : ∀ o ∈ ops, 0 ≤ gateOpEstimate o :=
      fun o ho => hops o (List.mem_cons_of_mem op ho)
    simpa [runGateOps] using
      runGateOps_nonneg ops (applyGateOp s op) hstep htail

/-- Claim C7: `releaseMemory` decrements the reservation by the estimate,
clamping at zero (it never fails and never drives the counter negative);
consequently, starting from a zero reservation, `reserved ≥ 0` is
preserved by every serialized interleaving of `acquireMemory` and
`releaseMemory` calls with non-negative estimates. -/
theorem release_clamps_and_reserved_nonneg :
    (∀ (s : GateState) (n : Int),
      (releaseMemory s n).memReservedBytes = max 0 (s.memReservedBytes - n))
    ∧ (∀ (b : Int) (ops : List GateOp),
        (∀ op ∈ ops, 0 ≤ gateOpEstimate op) →
        0 ≤ (runGateOps ⟨b, 0⟩ ops).memReservedBytes) := by
  constructor
  · intro s n
    simp only [releaseMemory]
    rw [Int.max_def]
    split
    · simp
      omega
    · simp
      omega
  · intro b ops hops
    exact runGateOps_nonneg ops ⟨b, 0⟩ (by simp) hops

/-- Claim C7 witness: a concrete interleaving (grant, over-release, grant)
with non-negative estimates keeps the counter non-negative. -/
theorem release_clamps_and_reserved_nonneg_witness :
    0 ≤ (runGateOps ⟨100, 0⟩
      [GateOp.acq 30 [⟨some 0, false⟩], GateOp.rel 50,
       GateOp.acq 20 [⟨some 0, false⟩]]).memReservedBytes :=
  release_clamps_and_reserved_nonneg.2 100
    [GateOp.acq 30 [⟨some 0, false⟩], GateOp.rel 50, GateOp.acq 20 [⟨some 0, false⟩]]
    (by decide)

/-- Every token emitted by the user loop under a pair-flag-free vector
passed the blocklist.  (The pair branch, the only way a token can bypass
the blocklist, requires a pair flag.) -/
theorem filterUserArgs_no_dash_o :
    ∀ (user : List String),
      (∀ x ∈ user, isPairFlag (strTrim x) = false) →
      ∀ tok ∈ filterUserArgs user, tok ≠ "-o" ∧ strStartsWith tok "-o=" = false
  | [], _, tok, htok => absurd htok (by simp [filterUserArgs])
  | [a], h, tok, htok => by
    by_cases he : strTrim a = ""
    · simp [filterUserArgs, he] at htok
    · rw [show filterUserArgs [a]
          = (if strTrim a = "" then [] else filterSingle (strTrim a)) from rfl,
        if_neg he] at htok
      rcases mem_filterSingle _ _ htok with ⟨rfl, hb⟩
      exact not_blocked_dash_o _ hb
  | a :: b :: rest, h, tok, htok => by
    have ha : isPairFlag (strTrim a) = false := h a (by simp)
    by_cases he : strTrim a = ""
    · rw [show filterUserArgs (a :: b :: rest)
          = (if strTrim a = "" then filterUserArgs (b :: rest)
             else if isPairFlag (strTrim a) then
               (if safeArgPath (strTrim b) then
                 strTrim a :: strTrim b :: filterUserArgs rest
               else filterUserArgs rest)
             else filterSingle (strTrim a) ++ filterUserArgs (b :: rest)) from rfl,
        if_pos he] at htok
      exact filterUserArgs_no_dash_o (b :: rest)
        (fun x hx => h x (List.mem_cons_of_mem a hx)) tok htok
    · rw [show filterUserArgs (a :: b :: rest)
          = (if strTrim a = "" then filterUserArgs (b :: rest)
             else if isPairFlag (strTrim a) then
               (if safeArgPath (strTrim b) then
                 strTrim a :: strTrim b :: filterUserArgs rest
               else filterUserArgs rest)
             else filterSingle (strTrim a) ++ filterUserArgs (b :: rest)) from rfl,
        if_neg he, ha] at htok
      simp only [Bool.false_eq_true, if_false] at htok
      rcases List.mem_append.mp htok with hmem | hmem
      · rcases mem_filterSingle _ _ hmem with ⟨rfl, hb⟩
        exact not_blocked_dash_o _ hb
      · exact filterUserArgs_no_dash_o (b :: rest)
          (fun x hx => h x (List.mem_cons_of_mem a hx)) tok hmem

/-- Claim C2 counterexample: the pair branch accepts `-o` as the path value
of `--preload-file` (it passes `safeArgPath`), so the filter output does
contain a standalone `-o` for this user vector. -/
theorem filter_dash_o_counterexample :
    "-o" ∈ mergeAndFilterArgs defaultArgs ["--preload-file", "-o"] := by decide

/-- Claim C2 (amended): for every user argument vector none of whose
trimmed tokens is one of the pair flags `--preload-file`, `--embed-file`,
`--source-map-base`, the output of the filter over the default operator
arguments contains no token equal to `-o` and no token beginning with
`-o=`. -/
theorem filter_denies_dash_o (user : List String)
    (h : ∀ x ∈ user, isPairFlag (strTrim x) = false) :
    ∀ tok ∈ mergeAndFilterArgs defaultArgs user,
      tok ≠ "-o" ∧ strStartsWith tok "-o=" = false := by
  intro tok htok
  rcases List.mem_append.mp htok with hmem | hmem
  · simp only [defaultArgs, List.mem_cons, List.not_mem_nil, or_false] at hmem
    rcases hmem with rfl | rfl | rfl | rfl <;> exact ⟨by decide, by decide⟩
  · exact filterUserArgs_no_dash_o user h tok hmem

/-- Claim C2 witness: a vector carrying `-o` in exact and `=` form, with no
pair flags, yields an output without `-o`. -/
theorem filter_denies_dash_o_witness :
    "-o" ∉ mergeAndFilterArgs defaultArgs ["-O2", " -o ", "-o=evil"] :=
  fun hmem =>
    (filter_denies_dash_o ["-O2", " -o ", "-o=evil"] (by decide) "-o" hmem).1 rfl

/-- Every token collected as an accepted pair value passed `safeArgPath`. -/
theorem acceptedPairValues_safe :
    ∀ (user : List String), ∀ v ∈ acceptedPairValues user, safeArgPath v = true
  | [], v, hv => absurd hv (by simp [acceptedPairValues])
  | [a], v, hv => absurd hv (by simp [acceptedPairValues])
  | a :: b :: rest, v, hv => by
    rw [show acceptedPairValues (a :: b :: rest)
        = (if strTrim a = "" then acceptedPairValues (b :: rest)
           else if isPairFlag (strTrim a) then
             (if safeArgPath (strTrim b) then
               strTrim b :: acceptedPairValues rest
             else acceptedPairValues rest)
           else acceptedPairValues (b :: rest)) from rfl] at hv
    by_cases he : strTrim a = ""
    · rw [if_pos he] at hv
      exact acceptedPairValues_safe (b :: rest) v hv
    · rw [if_neg he] at hv
      by_cases hp : isPairFlag (strTrim a)
      · rw [if_pos hp] at hv
        by_cases hs : safeArgPath (strTrim b)
        · rw [if_pos hs] at hv
          rcases List.mem_cons.mp hv with rfl | hv'
          · exact hs
          · exact acceptedPairValues_safe rest v hv'
        · rw [if_neg hs] at hv
          exact acceptedPairValues_safe rest v hv
      · rw [if_neg hp] at hv
        exact acceptedPairValues_safe (b :: rest) v hv

/-- Claim C3: no token accepted as the paired value immediately following
`--preload-file`, `--embed-file` or `--source-map-base` starts with `/` or
contains `..`; and when the candidate pair value is unsafe, the filter
drops both the flag and the value. -/
theorem pair_values_safe :
    (∀ user, ∀ v ∈ acceptedPairValues user,
      strStartsWith v "/" = false ∧ strContains v ".." = false)
    ∧ (∀ a b rest, isPairFlag (strTrim a) = true → safeArgPath (strTrim b) = false →
        filterUserArgs (a :: b :: rest) = filterUserArgs rest) := by
  constructor
  · intro user v hv
    exact safeArgPath_true v (acceptedPairValues_safe user v hv)
  · intro a b rest hp hs
    have he : ¬strTrim a = "" := by
      intro he
      rw [he] at hp
      exact absurd hp (by decide)
    rw [show filterUserArgs (a :: b :: rest)
        = (if strTrim a = "" then filterUserArgs (b :: rest)
           else if isPairFlag (strTrim a) then
             (if safeArgPath (strTrim b) then
               strTrim a :: strTrim b :: filterUserArgs rest
             else filterUserArgs rest)
           else filterSingle (strTrim a) ++ filterUserArgs (b :: rest)) from rfl,
      if_neg he, hp, hs]
    simp

/-- Claim C3 witness: a safe accepted pair value, and a concrete unsafe
pair dropped whole. -/
theorem pair_values_safe_witness :
    (strStartsWith "web/data.txt" "/" = false ∧ strContains "web/data.txt" ".." = false)
    ∧ filterUserArgs ["--preload-file", "/etc/passwd", "-O2"] = filterUserArgs ["-O2"] :=
  ⟨pair_values_safe.1 ["--preload-file", "web/data.txt"] "web/data.txt" (by decide),
   pair_values_safe.2 "--preload-file" "/etc/passwd" ["-O2"] (by decide) (by decide)⟩

/-- Claim C8 counterexample: for an empty cgroup root the probe returns an
error (`"cgroup root not set"`), not a successful 0 — even when the file
would read `max`. -/
theorem read_max_empty_root_counterexample :
    readCgroupMemoryMax "" (some "max") ≠ ReadMaxResult.ok 0 := by decide

/-- Claim C8 (amended): `readCgroupMemoryMax` returns an error when the
root is empty; with a non-empty root it returns 0 without error when the
file reads literal `max` (after trimming), otherwise it parses the
contents as a decimal byte count, propagating read and parse failures as
errors. -/
theorem read_max_semantics (root : String) (content : Option String) :
    (root = "" → readCgroupMemoryMax root content = ReadMaxResult.err)
    ∧ (root ≠ "" → content = none → readCgroupMemoryMax root content = ReadMaxResult.err)
    ∧ (∀ b, root ≠ "" → content = some b → strTrim b = "max" →
        readCgroupMemoryMax root content = ReadMaxResult.ok 0)
    ∧ (∀ b v, root ≠ "" → content = some b → strTrim b ≠ "max" →
        scanInt (strTrim b) = some v →
        readCgroupMemoryMax root content = ReadMaxResult.ok v)
    ∧ (∀ b, root ≠ "" → content = some b → strTrim b ≠ "max" →
        scanInt (strTrim b) = none →
        readCgroupMemoryMax root content = ReadMaxResult.err) := by
  refine ⟨?_, ?_, ?_, ?_, ?_⟩
  · intro h
    simp [readCgroupMemoryMax, h]
  · intro h hc
    simp [readCgroupMemoryMax, h, hc]
  · intro b h hc hm
    simp [readCgroupMemoryMax, h, hc, hm]
  · intro b v h hc hm hscan
    simp [readCgroupMemoryMax, h, hc, hm, hscan]
  · intro b h hc hm hscan
    simp [readCgroupMemoryMax, h, hc, hm, hscan]

/-- Claim C8 witness: concrete probe reads — empty root errors, `max`
yields 0, a decimal parses. -/
theorem read_max_semantics_witness :
    readCgroupMemoryMax "" (some "123") = ReadMaxResult.err
    ∧ readCgroupMemoryMax "cgroup" (some " max\n") = ReadMaxResult.ok 0
    ∧ readCgroupMemoryMax "cgroup" (some "1073741824\n") = ReadMaxResult.ok 1073741824 :=
  ⟨(read_max_semantics "" (some "123")).1 rfl,
   (read_max_semantics "cgroup" (some " max\n")).2.2.1 " max\n" (by decide) rfl (by decide),
   (read_max_semantics "cgroup" (some "1073741824\n")).2.2.2.1 "1073741824\n" 1073741824
     (by decide) rfl (by decide) (by decide)⟩

/-- Claim C9 counterexample: the handler lowercases the type tag, so the
present type `C` — not exactly equal to any of `c`, `cpp`, `cc`, `c++` —
is accepted as `c` rather than rejected. -/
theorem lang_exact_match_counterexample :
    validateLang "C" = LangCheck.accepted "c"
    ∧ ("C" ≠ "c" ∧ "C" ≠ "cpp" ∧ "C" ≠ "cc" ∧ "C" ≠ "c++") := by decide

/-- Claim C9 (amended): a `/compile` request whose type field, after
trimming whitespace and lowercasing, is none of `c`, `cpp`, `cc`, `c++`
and not empty is rejected with HTTP 400 and body
`type must be 'c' or 'cpp'`; an absent (empty) type defaults to `c`. -/
theorem lang_validation (t : String) :
    (strToLower (strTrim t) ≠ "c" → strToLower (strTrim t) ≠ "cpp" →
     strToLower (strTrim t) ≠ "cc" → strToLower (strTrim t) ≠ "c++" →
     strToLower (strTrim t) ≠ "" →
     validateLang t = LangCheck.rejected 400 "type must be 'c' or 'cpp'")
    ∧ (strTrim t = "" → validateLang t = LangCheck.accepted "c") := by
  constructor
  · intro h1 h2 h3 h4 h5
    simp [validateLang, h1, h2, h3, h4, h5]
  · intro h
    have hlow : strToLower (strTrim t) = "" := by
      rw [h]
      decide
    simp [validateLang, hlow]

/-- Claim C9 witness: `rust` is rejected with the exact status and body,
and an absent (empty) type defaults to `c`. -/
theorem lang_validation_witness :
    validateLang "rust" = LangCheck.rejected 400 "type must be 'c' or 'cpp'"
    ∧ validateLang "" = LangCheck.accepted "c" :=
  ⟨(lang_validation "rust").1 (by decide) (by decide) (by decide) (by decide) (by decide),
   (lang_validation "").2 (by decide)⟩

/-- Claim C10: `-sENVIRONMENT=node,worker` — which selects the node
environment — is neither an exact match for the blocked
`-sENVIRONMENT=node` nor prefixed by `-sENVIRONMENT=node=`, so the block
rule does not fire, while the allow prefix `-sENVIRONMENT=` accepts it and
the filter appends it to the output. -/
theorem env_node_variant_passes :
    isBlockedArg "-sENVIRONMENT=node,worker" blockedList = false
    ∧ isAllowedArg "-sENVIRONMENT=node,worker" allowedPrefixes = true
    ∧ mergeAndFilterArgs defaultArgs ["-sENVIRONMENT=node,worker"]
        = defaultArgs ++ ["-sENVIRONMENT=node,worker"] := by
  refine ⟨by decide, by decide, by decide⟩
